import Mathlib

/-!
Verification of the `unshare` child-process launch-descriptor builder
(`src/std_api.rs`).

The builder is embedded shallowly:

* a platform-native string (`OsStr`/`OsString`/`CString`) is its byte
  sequence, a `List Nat`;
* the environment map (`HashMap<OsString, OsString>`) is an association
  list with hash-map semantics (insert replaces an existing key, remove
  deletes it, lookup finds the unique binding);
* the ambient process environment read by `std::env::vars_os()` is passed
  as an explicit `Ambient` argument to the operations that may read it;
* the `unwrap()` in `Command::env` / `Command::env_remove` is a fallible
  step: those operations return `Option Command`, with `none` standing
  for the panic.
-/

/-- A platform-native string, represented by its byte sequence. -/
abbrev OsString := List Nat

/-- Modelled from the spec: the native-string conversion utility
(`ffi_util::ToCString`, outside the sources here) turns a caller string
into the C form used for `filename`, `args` and `work_dir`.  In this
byte-sequence model the conversion keeps the bytes unchanged; the datum
it cannot represent (an embedded NUL) is tracked by `hasNul`. -/
def toCString (s : OsString) : OsString := s

/-- `OsStr::to_os_string`: takes an owned copy of the bytes. -/
def toOsString (s : OsString) : OsString := s

/-- Modelled from the spec: an embedded NUL byte is the datum that is
unrepresentable in a platform-native C string. -/
def hasNul (s : OsString) : Bool := s.contains 0

/-- The `std::process::Stdio` redirection target (an external
collaborator type: inherit, pipe, null device, or an inherited file
descriptor). -/
inductive Stdio where
  | inherit : Stdio
  | piped : Stdio
  | null : Stdio
  | fd : Nat → Stdio
deriving DecidableEq, Repr

/-- The environment mapping: an association list of key/value pairs. -/
abbrev EnvMap := List (OsString × OsString)

/-- Lookup in the environment mapping (`HashMap::get`). -/
def mapGet : EnvMap → OsString → Option OsString
  | [], _ => none
  | (k', v') :: rest, k => if k' = k then some v' else mapGet rest k

/-- Insert into the environment mapping (`HashMap::insert`): an existing
key has its value replaced, a new key is appended. -/
def mapInsert : EnvMap → OsString → OsString → EnvMap
  | [], k, v => [(k, v)]
  | (k', v') :: rest, k, v =>
      if k' = k then (k, v) :: rest else (k', v') :: mapInsert rest k v

/-- Remove from the environment mapping (`HashMap::remove`): every
binding of the key disappears (a hash map holds at most one). -/
def mapRemove : EnvMap → OsString → EnvMap
  | [], _ => []
  | (k', v') :: rest, k =>
      if k' = k then mapRemove rest k else (k', v') :: mapRemove rest k

/-- The ambient environment of the constructing process, as the pair
sequence produced by `std::env::vars_os()`. -/
abbrev Ambient := List (OsString × OsString)

/-- `env::vars_os().collect::<HashMap<_, _>>()`: folding the pair
sequence into a map, a later binding of a key overwriting an earlier
one. -/
def collectVars (amb : Ambient) : EnvMap :=
  amb.foldl (fun m p => mapInsert m p.1 p.2) []

/-- The launch descriptor (`Command`).  The struct itself is declared
outside the sources here; its fields are taken from their uses in
`std_api.rs`, with the `config.work_dir` sub-field of the defaulted
`config` inlined as `work_dir` (the only configuration field this file
touches). -/
structure Command where
  filename : OsString
  args : List OsString
  environ : Option EnvMap
  work_dir : Option OsString
  stdin : Option Stdio
  stdout : Option Stdio
  stderr : Option Stdio
deriving DecidableEq, Repr

/-- `Command::new`: program converted once, stored as `filename` and as
the sole initial argument; environment inherited; no working-directory
or stdio overrides (`config: Default::default()` leaves
`work_dir = None`). -/
def Command.new (program : OsString) : Command :=
  { filename := toCString program
    args := [toCString program]
    environ := none
    work_dir := none
    stdin := none
    stdout := none
    stderr := none }

/-- `Command::arg`: pushes one converted argument. -/
def Command.arg (c : Command) (a : OsString) : Command :=
  { c with args := c.args ++ [toCString a] }

/-- `Command::args` (primed because the structure field is already named
`args`): extends the argument list with the converted elements. -/
def Command.args' (c : Command) (as : List OsString) : Command :=
  { c with args := c.args ++ as.map toCString }

/-- `Command::init_env_map`: if no environment override is recorded yet,
snapshot the ambient environment into the map. -/
def Command.init_env_map (amb : Ambient) (c : Command) : Command :=
  if c.environ.isNone then { c with environ := some (collectVars amb) } else c

/-- `Command::env`: materialize, then insert the key/value pair (both
converted by `to_os_string`).  The `as_mut().unwrap()` is the `none`
branch. -/
def Command.env (amb : Ambient) (c : Command) (key val : OsString) :
    Option Command :=
  let c1 := c.init_env_map amb
  match c1.environ with
  | none => none
  | some m => some { c1 with environ := some (mapInsert m (toOsString key) (toOsString val)) }

/-- `Command::env_remove`: materialize, then remove the key.  The
`as_mut().unwrap()` is the `none` branch. -/
def Command.env_remove (amb : Ambient) (c : Command) (key : OsString) :
    Option Command :=
  let c1 := c.init_env_map amb
  match c1.environ with
  | none => none
  | some m => some { c1 with environ := some (mapRemove m key) }

/-- `Command::env_clear`: the override becomes a fresh empty map. -/
def Command.env_clear (c : Command) : Command :=
  { c with environ := some [] }

/-- `Command::current_dir`: records the converted working-directory
override in `config.work_dir`. -/
def Command.current_dir (c : Command) (dir : OsString) : Command :=
  { c with work_dir := some (toCString dir) }

/-- `Command::stdin` (renamed: the structure field is already named
`stdin`): records the stdin override. -/
def Command.setStdin (c : Command) (cfg : Stdio) : Command :=
  { c with stdin := some cfg }

/-- `Command::stdout` (renamed: the structure field is already named
`stdout`): records the stdout override. -/
def Command.setStdout (c : Command) (cfg : Stdio) : Command :=
  { c with stdout := some cfg }

/-- `Command::stderr` (renamed: the structure field is already named
`stderr`): records the stderr override. -/
def Command.setStderr (c : Command) (cfg : Stdio) : Command :=
  { c with stderr := some cfg }

/-- The effective environment mapping the spawn engine reads (spec §6):
the materialized map when one is recorded, the collected ambient
environment otherwise. -/
def Command.effectiveEnv (amb : Ambient) (c : Command) : EnvMap :=
  match c.environ with
  | some m => m
  | none => collectVars amb

/-- One builder operation, for quantifying over operation sequences. -/
inductive Op where
  | arg : OsString → Op
  | args : List OsString → Op
  | env : OsString → OsString → Op
  | env_remove : OsString → Op
  | env_clear : Op
  | current_dir : OsString → Op
  | stdin : Stdio → Op
  | stdout : Stdio → Op
  | stderr : Stdio → Op
deriving DecidableEq, Repr

/-- Run one builder operation on a descriptor (`none` = panic). -/
def Command.applyOp (amb : Ambient) (c : Command) : Op → Option Command
  | Op.arg a => some (c.arg a)
  | Op.args as => some (c.args' as)
  | Op.env k v => c.env amb k v
  | Op.env_remove k => c.env_remove amb k
  | Op.env_clear => some c.env_clear
  | Op.current_dir d => some (c.current_dir d)
  | Op.stdin cfg => some (c.setStdin cfg)
  | Op.stdout cfg => some (c.setStdout cfg)
  | Op.stderr cfg => some (c.setStderr cfg)

/-- Run a sequence of builder operations left to right. -/
def Command.applyOps (amb : Ambient) (c : Command) : List Op → Option Command
  | [] => some c
  | op :: rest =>
      match c.applyOp amb op with
      | some c' => c'.applyOps amb rest
      | none => none

/-! ### Lemmas about the environment mapping -/

theorem mapGet_insert_self (m : EnvMap) (k v : OsString) :
    mapGet (mapInsert m k v) k = some v := by
  induction m with
  | nil => simp [mapInsert, mapGet]
  | cons p rest ih =>
      obtain ⟨k', v'⟩ := p
      by_cases h : k' = k <;> simp [mapInsert, mapGet, h, ih]

theorem mapGet_insert_other (m : EnvMap) (k v k2 : OsString) (h : k2 ≠ k) :
    mapGet (mapInsert m k v) k2 = mapGet m k2 := by
  induction m with
  | nil => simp [mapInsert, mapGet, h, Ne.symm h]
  | cons p rest ih =>
      obtain ⟨k', v'⟩ := p
      by_cases hk : k' = k
      · simp [mapInsert, mapGet, hk, h, Ne.symm h]
      · by_cases hk2 : k' = k2 <;>
          simp [mapInsert, mapGet, hk, hk2, h, Ne.symm h, ih]

theorem mapGet_remove_self (m : EnvMap) (k : OsString) :
    mapGet (mapRemove m k) k = none := by
  induction m with
  | nil => simp [mapRemove, mapGet]
  | cons p rest ih =>
      obtain ⟨k', v'⟩ := p
      by_cases h : k' = k <;> simp [mapRemove, mapGet, h, ih]

theorem mapGet_remove_other (m : EnvMap) (k k2 : OsString) (h : k2 ≠ k) :
    mapGet (mapRemove m k) k2 = mapGet m k2 := by
  induction m with
  | nil => simp [mapRemove, mapGet]
  | cons p rest ih =>
      obtain ⟨k', v'⟩ := p
      by_cases hk : k' = k
      · subst hk
        simp [mapRemove, mapGet, h, Ne.symm h, ih]
      · by_cases hk2 : k' = k2 <;>
          simp [mapRemove, mapGet, hk, hk2, h, Ne.symm h, ih]

theorem mapRemove_of_get_none (m : EnvMap) (k : OsString)
    (h : mapGet m k = none) : mapRemove m k = m := by
  induction m with
  | nil => simp [mapRemove]
  | cons p rest ih =>
      obtain ⟨k', v'⟩ := p
      by_cases hk : k' = k
      · simp [mapGet, hk] at h
      · simp [mapGet, hk] at h
        simp [mapRemove, hk, ih h]

/-! ### Characterizations of the environment operations -/

theorem init_env_map_of_none (amb : Ambient) (c : Command)
    (h : c.environ = none) :
    c.init_env_map amb = { c with environ := some (collectVars amb) } := by
  simp [Command.init_env_map, h]

theorem init_env_map_of_some (amb : Ambient) (c : Command) (m : EnvMap)
    (h : c.environ = some m) : c.init_env_map amb = c := by
  simp [Command.init_env_map, h]

theorem env_of_none (amb : Ambient) (c : Command) (key val : OsString)
    (h : c.environ = none) :
    c.env amb key val
      = some { c with environ := some (mapInsert (collectVars amb) key val) } := by
  simp [Command.env, init_env_map_of_none amb c h, toOsString]

theorem env_of_some (amb : Ambient) (c : Command) (m : EnvMap)
    (key val : OsString) (h : c.environ = some m) :
    c.env amb key val = some { c with environ := some (mapInsert m key val) } := by
  simp [Command.env, init_env_map_of_some amb c m h, h, toOsString]

theorem env_remove_of_none (amb : Ambient) (c : Command) (key : OsString)
    (h : c.environ = none) :
    c.env_remove amb key
      = some { c with environ := some (mapRemove (collectVars amb) key) } := by
  simp [Command.env_remove, init_env_map_of_none amb c h]

theorem env_remove_of_some (amb : Ambient) (c : Command) (m : EnvMap)
    (key : OsString) (h : c.environ = some m) :
    c.env_remove amb key = some { c with environ := some (mapRemove m key) } := by
  simp [Command.env_remove, init_env_map_of_some amb c m h, h]

/-! ### Claim theorems -/

/-- Claim C5, counterexample: `Command::env` called with a key holding an
embedded NUL byte succeeds and stores the key in the mapping; no
conversion error is surfaced at the call, contrary to the claim that a
NUL triggers a synchronous `StringConversionError` there. -/
theorem C5_cex_nul_key_accepted :
    hasNul [0, 65] = true ∧
    (Command.new [101]).env [] [0, 65] [49]
      = some { filename := [101], args := [[101]],
               environ := some [([0, 65], [49])],
               work_dir := none, stdin := none, stdout := none,
               stderr := none } :=
  ⟨rfl, rfl⟩

/-- Claim C5, amended: `Command::env` converts key and value with the
total `to_os_string` conversion at the call; the call always succeeds —
embedded NUL bytes included — and stores the converted pair in the
mapping, so no conversion failure is raised at this call (a NUL can only
matter later, at spawn time). -/
theorem C5_env_conversion_total (amb : Ambient) (c : Command)
    (key val : OsString) :
    ∃ c', c.env amb key val = some c' ∧
      mapGet (c'.effectiveEnv amb) (toOsString key) = some (toOsString val) := by
  cases h : c.environ with
  | none =>
      refine ⟨_, env_of_none amb c key val h, ?_⟩
      simp [Command.effectiveEnv, toOsString, mapGet_insert_self]
  | some m =>
      refine ⟨_, env_of_some amb c m key val h, ?_⟩
      simp [Command.effectiveEnv, toOsString, mapGet_insert_self]

/-- Claim C6: `Command::args` on a sequence equals folding `Command::arg`
over the sequence in order, and the resulting argument list is the prior
list followed by the converted elements in call order. -/
theorem C6_args_eq_repeated_arg (c : Command) (as : List OsString) :
    c.args' as = List.foldl Command.arg c as ∧
    (c.args' as).args = c.args ++ as.map toCString := by
  refine ⟨?_, rfl⟩
  induction as generalizing c with
  | nil => simp [Command.args']
  | cons a rest ih =>
      rw [List.foldl_cons, ← ih (c.arg a)]
      simp [Command.args', Command.arg, List.append_assoc]

/-- Claim C7: each stdio setter changes only its own stream override and
leaves the other two streams, the program, the arguments, the
environment and the working directory untouched. -/
theorem C7_stdio_frame (c : Command) (cfg : Stdio) :
    ((c.setStdout cfg).stdin = c.stdin ∧ (c.setStdout cfg).stderr = c.stderr ∧
       (c.setStdout cfg).filename = c.filename ∧
       (c.setStdout cfg).args = c.args ∧
       (c.setStdout cfg).environ = c.environ ∧
       (c.setStdout cfg).work_dir = c.work_dir) ∧
    ((c.setStdin cfg).stdout = c.stdout ∧ (c.setStdin cfg).stderr = c.stderr ∧
       (c.setStdin cfg).filename = c.filename ∧
       (c.setStdin cfg).args = c.args ∧
       (c.setStdin cfg).environ = c.environ ∧
       (c.setStdin cfg).work_dir = c.work_dir) ∧
    ((c.setStderr cfg).stdin = c.stdin ∧ (c.setStderr cfg).stdout = c.stdout ∧
       (c.setStderr cfg).filename = c.filename ∧
       (c.setStderr cfg).args = c.args ∧
       (c.setStderr cfg).environ = c.environ ∧
       (c.setStderr cfg).work_dir = c.work_dir) :=
  ⟨⟨rfl, rfl, rfl, rfl, rfl, rfl⟩, ⟨rfl, rfl, rfl, rfl, rfl, rfl⟩,
    ⟨rfl, rfl, rfl, rfl, rfl, rfl⟩⟩

/-- Claim C8: `Command::new` yields a descriptor whose `filename` and
sole argument are the converted program, environment inherited
(`environ = none`), and no working-directory or stdio overrides. -/
theorem C8_new_defaults (p : OsString) :
    (Command.new p).filename = toCString p ∧
    (Command.new p).args = [toCString p] ∧
    (Command.new p).environ = none ∧
    (Command.new p).work_dir = none ∧
    (Command.new p).stdin = none ∧
    (Command.new p).stdout = none ∧
    (Command.new p).stderr = none :=
  ⟨rfl, rfl, rfl, rfl, rfl, rfl, rfl⟩

/-- Claim C9: no builder operation can fail: on any descriptor every
operation yields a result, and `init_env_map` always leaves the
environment map present, so the `unwrap` in `env`/`env_remove` is
unreachable as an error. -/
theorem C9_mutators_never_fail (amb : Ambient) (c : Command) (op : Op) :
    (c.applyOp amb op).isSome = true ∧
    ((c.init_env_map amb).environ).isSome = true := by
  constructor
  · cases op with
    | env k v =>
        cases h : c.environ with
        | none => simp [Command.applyOp, env_of_none amb c k v h]
        | some m => simp [Command.applyOp, env_of_some amb c m k v h]
    | env_remove k =>
        cases h : c.environ with
        | none => simp [Command.applyOp, env_remove_of_none amb c k h]
        | some m => simp [Command.applyOp, env_remove_of_some amb c m k h]
    | arg a => simp [Command.applyOp]
    | args as => simp [Command.applyOp]
    | env_clear => simp [Command.applyOp]
    | current_dir d => simp [Command.applyOp]
    | stdin s => simp [Command.applyOp]
    | stdout s => simp [Command.applyOp]
    | stderr s => simp [Command.applyOp]
  · cases h : c.environ <;> simp [Command.init_env_map, h]

/-! ### Lemmas about operation sequences -/

theorem applyOps_cons_some (amb : Ambient) (c cMid : Command) (op : Op)
    (rest : List Op) (h : c.applyOp amb op = some cMid) :
    c.applyOps amb (op :: rest) = cMid.applyOps amb rest := by
  simp [Command.applyOps, h]

theorem applyOps_cons_none (amb : Ambient) (c : Command) (op : Op)
    (rest : List Op) (h : c.applyOp amb op = none) :
    c.applyOps amb (op :: rest) = none := by
  simp [Command.applyOps, h]

theorem applyOp_args_extends (amb : Ambient) (c : Command) (op : Op)
    (c' : Command) (h : c.applyOp amb op = some c') :
    ∃ t, c'.args = c.args ++ t := by
  cases op with
  | arg a =>
      simp only [Command.applyOp] at h
      obtain rfl := Option.some_injective _ h
      exact ⟨[toCString a], rfl⟩
  | args as =>
      simp only [Command.applyOp] at h
      obtain rfl := Option.some_injective _ h
      exact ⟨as.map toCString, rfl⟩
  | env k v =>
      simp only [Command.applyOp] at h
      cases hc : c.environ with
      | none =>
          rw [env_of_none amb c k v hc] at h
          obtain rfl := Option.some_injective _ h
          exact ⟨[], by simp⟩
      | some m =>
          rw [env_of_some amb c m k v hc] at h
          obtain rfl := Option.some_injective _ h
          exact ⟨[], by simp⟩
  | env_remove k =>
      simp only [Command.applyOp] at h
      cases hc : c.environ with
      | none =>
          rw [env_remove_of_none amb c k hc] at h
          obtain rfl := Option.some_injective _ h
          exact ⟨[], by simp⟩
      | some m =>
          rw [env_remove_of_some amb c m k hc] at h
          obtain rfl := Option.some_injective _ h
          exact ⟨[], by simp⟩
  | env_clear =>
      simp only [Command.applyOp] at h
      obtain rfl := Option.some_injective _ h
      exact ⟨[], (List.append_nil _).symm⟩
  | current_dir d =>
      simp only [Command.applyOp] at h
      obtain rfl := Option.some_injective _ h
      exact ⟨[], (List.append_nil _).symm⟩
  | stdin s =>
      simp only [Command.applyOp] at h
      obtain rfl := Option.some_injective _ h
      exact ⟨[], (List.append_nil _).symm⟩
  | stdout s =>
      simp only [Command.applyOp] at h
      obtain rfl := Option.some_injective _ h
      exact ⟨[], (List.append_nil _).symm⟩
  | stderr s =>
      simp only [Command.applyOp] at h
      obtain rfl := Option.some_injective _ h
      exact ⟨[], (List.append_nil _).symm⟩

theorem applyOps_args_extends (amb : Ambient) (ops : List Op) :
    ∀ c c' : Command, c.applyOps amb ops = some c' →
      ∃ t, c'.args = c.args ++ t := by
  induction ops with
  | nil =>
      intro c c' h
      simp [Command.applyOps] at h
      subst h
      exact ⟨[], by simp⟩
  | cons op rest ih =>
      intro c c' h
      cases hop : c.applyOp amb op with
      | none => rw [applyOps_cons_none amb c op rest hop] at h; cases h
      | some cMid =>
          rw [applyOps_cons_some amb c cMid op rest hop] at h
          obtain ⟨t1, ht1⟩ := applyOp_args_extends amb c op cMid hop
          obtain ⟨t2, ht2⟩ := ih cMid c' h
          exact ⟨t1 ++ t2, by rw [ht2, ht1, List.append_assoc]⟩

theorem applyOp_amb_irrelevant (amb1 amb2 : Ambient) (c : Command) (op : Op)
    (h : c.environ.isSome = true) :
    c.applyOp amb1 op = c.applyOp amb2 op := by
  obtain ⟨m, hm⟩ := Option.isSome_iff_exists.mp h
  cases op with
  | arg a => rfl
  | args as => rfl
  | env k v =>
      simp only [Command.applyOp]
      rw [env_of_some amb1 c m k v hm, env_of_some amb2 c m k v hm]
  | env_remove k =>
      simp only [Command.applyOp]
      rw [env_remove_of_some amb1 c m k hm, env_remove_of_some amb2 c m k hm]
  | env_clear => rfl
  | current_dir d => rfl
  | stdin s => rfl
  | stdout s => rfl
  | stderr s => rfl

theorem applyOp_preserves_environ_isSome (amb : Ambient) (c c' : Command)
    (op : Op) (h : c.environ.isSome = true)
    (happ : c.applyOp amb op = some c') :
    c'.environ.isSome = true := by
  obtain ⟨m, hm⟩ := Option.isSome_iff_exists.mp h
  cases op with
  | arg a =>
      simp only [Command.applyOp] at happ
      obtain rfl := Option.some_injective _ happ
      exact h
  | args as =>
      simp only [Command.applyOp] at happ
      obtain rfl := Option.some_injective _ happ
      exact h
  | env k v =>
      simp only [Command.applyOp] at happ
      rw [env_of_some amb c m k v hm] at happ
      obtain rfl := Option.some_injective _ happ
      rfl
  | env_remove k =>
      simp only [Command.applyOp] at happ
      rw [env_remove_of_some amb c m k hm] at happ
      obtain rfl := Option.some_injective _ happ
      rfl
  | env_clear =>
      simp only [Command.applyOp] at happ
      obtain rfl := Option.some_injective _ happ
      rfl
  | current_dir d =>
      simp only [Command.applyOp] at happ
      obtain rfl := Option.some_injective _ happ
      exact h
  | stdin s =>
      simp only [Command.applyOp] at happ
      obtain rfl := Option.some_injective _ happ
      exact h
  | stdout s =>
      simp only [Command.applyOp] at happ
      obtain rfl := Option.some_injective _ happ
      exact h
  | stderr s =>
      simp only [Command.applyOp] at happ
      obtain rfl := Option.some_injective _ happ
      exact h

theorem applyOps_amb_irrelevant (amb1 amb2 : Ambient) (ops : List Op) :
    ∀ c : Command, c.environ.isSome = true →
      c.applyOps amb1 ops = c.applyOps amb2 ops := by
  induction ops with
  | nil => intro c _; rfl
  | cons op rest ih =>
      intro c h
      cases hop : c.applyOp amb1 op with
      | none =>
          have hop2 : c.applyOp amb2 op = none := by
            rw [← applyOp_amb_irrelevant amb1 amb2 c op h]; exact hop
          rw [applyOps_cons_none amb1 c op rest hop,
            applyOps_cons_none amb2 c op rest hop2]
      | some cMid =>
          have hop2 : c.applyOp amb2 op = some cMid := by
            rw [← applyOp_amb_irrelevant amb1 amb2 c op h]; exact hop
          rw [applyOps_cons_some amb1 c cMid op rest hop,
            applyOps_cons_some amb2 c cMid op rest hop2]
          exact ih cMid (applyOp_preserves_environ_isSome amb1 c cMid op h hop)

/-- Claim C1: when the environment is still inherited, the first `env`
call snapshots the collected ambient environment before applying the
insertion: the result maps the new key to the new value and keeps every
other ambient binding (e.g. ambient `PATH=/bin` survives `env X 1`). -/
theorem C1_first_env_snapshots_ambient (amb : Ambient) (c : Command)
    (key val : OsString) (c' : Command)
    (hinh : c.environ = none)
    (henv : c.env amb key val = some c') :
    c'.environ = some (mapInsert (collectVars amb) key val) ∧
    mapGet (c'.effectiveEnv amb) key = some val ∧
    (∀ k w, k ≠ key → mapGet (collectVars amb) k = some w →
      mapGet (c'.effectiveEnv amb) k = some w) := by
  rw [env_of_none amb c key val hinh] at henv
  obtain rfl := Option.some_injective _ henv
  refine ⟨rfl, ?_, ?_⟩
  · simp [Command.effectiveEnv, mapGet_insert_self]
  · intro k w hk hw
    rw [← hw]
    simp [Command.effectiveEnv, mapGet_insert_other _ _ _ _ hk]

/-- Witness for claim C1: with ambient `[80] ↦ [47]`, `env [88] [49]` on
a fresh descriptor keeps the ambient binding and adds the new one. -/
theorem C1_first_env_snapshots_ambient_witness :
    mapGet (Command.effectiveEnv [([80], [47])]
      { filename := [101], args := [[101]],
        environ := some [([80], [47]), ([88], [49])],
        work_dir := none, stdin := none, stdout := none,
        stderr := none }) [80] = some [47] :=
  (C1_first_env_snapshots_ambient [([80], [47])] (Command.new [101])
      [88] [49]
      { filename := [101], args := [[101]],
        environ := some [([80], [47]), ([88], [49])],
        work_dir := none, stdin := none, stdout := none, stderr := none }
      rfl rfl).2.2 [80] [47] (by decide) rfl

/-- Claim C2: `env_clear` leaves the environment override an empty map —
so the effective environment is empty whatever the ambient state or the
prior operations were — and a subsequent `env` yields exactly the single
new binding, with no ambient leakage. -/
theorem C2_env_clear_isolation (amb : Ambient) (c : Command)
    (key val : OsString) :
    c.env_clear.environ = some [] ∧
    c.env_clear.effectiveEnv amb = [] ∧
    c.env_clear.env amb key val
      = some { c.env_clear with environ := some [(key, val)] } :=
  ⟨rfl, rfl, env_of_some amb c.env_clear [] key val rfl⟩

/-- Claim C3: after `env k v` the effective mapping has `k ↦ v`; a later
`env k v2` overwrites it to `k ↦ v2`; a later `env_remove k` leaves `k`
absent; and `env_remove` of a key absent from a materialized mapping
returns the descriptor unchanged and is not an error. -/
theorem C3_env_set_get_remove (amb : Ambient) (c : Command)
    (k v v2 : OsString) :
    (∀ c1, c.env amb k v = some c1 →
       mapGet (c1.effectiveEnv amb) k = some v ∧
       (∀ c2, c1.env amb k v2 = some c2 →
          mapGet (c2.effectiveEnv amb) k = some v2) ∧
       (∀ c2, c1.env_remove amb k = some c2 →
          mapGet (c2.effectiveEnv amb) k = none)) ∧
    (∀ m, c.environ = some m → mapGet m k = none →
       c.env_remove amb k = some c) := by
  constructor
  · intro c1 h1
    have hchar : ∃ m0, c1 = { c with environ := some (mapInsert m0 k v) } := by
      cases hc : c.environ with
      | none =>
          rw [env_of_none amb c k v hc] at h1
          exact ⟨collectVars amb, (Option.some_injective _ h1).symm⟩
      | some m =>
          rw [env_of_some amb c m k v hc] at h1
          exact ⟨m, (Option.some_injective _ h1).symm⟩
    obtain ⟨m0, rfl⟩ := hchar
    refine ⟨?_, ?_, ?_⟩
    · simp [Command.effectiveEnv, mapGet_insert_self]
    · intro c2 h2
      rw [env_of_some amb _ (mapInsert m0 k v) k v2 rfl] at h2
      obtain rfl := Option.some_injective _ h2
      simp [Command.effectiveEnv, mapGet_insert_self]
    · intro c2 h2
      rw [env_remove_of_some amb _ (mapInsert m0 k v) k rfl] at h2
      obtain rfl := Option.some_injective _ h2
      simp [Command.effectiveEnv, mapGet_remove_self]
  · intro m hm hget
    rw [env_remove_of_some amb c m k hm, mapRemove_of_get_none m k hget, ← hm]

/-- Witness for claim C3: on a fresh descriptor with empty ambient
environment, after `env [75] [49]` the key `[75]` reads back `[49]`. -/
theorem C3_env_set_get_remove_witness :
    mapGet (Command.effectiveEnv []
      { filename := [101], args := [[101]],
        environ := some [([75], [49])],
        work_dir := none, stdin := none, stdout := none,
        stderr := none }) [75] = some [49] :=
  ((C3_env_set_get_remove [] (Command.new [101]) [75] [49] [50]).1
      { filename := [101], args := [[101]],
        environ := some [([75], [49])],
        work_dir := none, stdin := none, stdout := none, stderr := none }
      rfl).1

/-- Claim C4: any operation sequence applied to a newly constructed
descriptor keeps the argument list nonempty, with the converted program
identifier at index 0. -/
theorem C4_argv0_invariant (p : OsString) (amb : Ambient) (ops : List Op)
    (c' : Command)
    (h : (Command.new p).applyOps amb ops = some c') :
    c'.args ≠ [] ∧ c'.args.head? = some (toCString p) := by
  obtain ⟨t, ht⟩ := applyOps_args_extends amb ops (Command.new p) c' h
  rw [ht]
  exact ⟨by simp [Command.new], by simp [Command.new]⟩

/-- Witness for claim C4: after `new [101]` followed by `arg [104]` the
argument list is nonempty and starts with the program `[101]`. -/
theorem C4_argv0_invariant_witness :
    ({ filename := [101], args := [[101], [104]], environ := none,
       work_dir := none, stdin := none, stdout := none,
       stderr := none } : Command).args ≠ [] ∧
    ({ filename := [101], args := [[101], [104]], environ := none,
       work_dir := none, stdin := none, stdout := none,
       stderr := none } : Command).args.head? = some (toCString [101]) :=
  C4_argv0_invariant [101] [] [Op.arg [104]]
    { filename := [101], args := [[101], [104]], environ := none,
      work_dir := none, stdin := none, stdout := none, stderr := none }
    rfl

/-- Claim C10: once an environment override is present (materialized or
cleared), no operation reads the ambient environment again: the same
operation sequence yields the same result under any two ambient
environments, and `init_env_map` itself is then a no-op. -/
theorem C10_no_ambient_read_after_materialization (amb1 amb2 : Ambient)
    (c : Command) (ops : List Op) (h : c.environ.isSome = true) :
    c.applyOps amb1 ops = c.applyOps amb2 ops ∧
    c.init_env_map amb1 = c := by
  constructor
  · exact applyOps_amb_irrelevant amb1 amb2 ops c h
  · obtain ⟨m, hm⟩ := Option.isSome_iff_exists.mp h
    exact init_env_map_of_some amb1 c m hm

/-- Witness for claim C10: a cleared descriptor runs `env [88] [49]` to
the same result under two different ambient environments, and
`init_env_map` leaves it unchanged. -/
theorem C10_no_ambient_read_after_materialization_witness :
    (Command.new [101]).env_clear.applyOps [([80], [47])] [Op.env [88] [49]]
      = (Command.new [101]).env_clear.applyOps [] [Op.env [88] [49]] ∧
    (Command.new [101]).env_clear.init_env_map [([80], [47])]
      = (Command.new [101]).env_clear :=
  C10_no_ambient_read_after_materialization [([80], [47])] []
    (Command.new [101]).env_clear [Op.env [88] [49]] rfl
